import Mathlib

/-!
Verification of the nft-nexus repository: a shallow embedding of its
string-processing helpers, HTTP endpoint handlers, gallery fetch loop,
network-switch flow, deployment script and shared configuration, together
with theorems settling the specification's claims about them.

The JavaScript/TypeScript sources are embedded as pure Lean functions.
Machine effects (wallet requests, file-system writes, HTTP fetches) are
made explicit as parameters or recorded request traces.
-/

namespace NFTNexus

/-! ## JavaScript string primitives

Character classes of the regular expressions used by the sources:
the word class of the regex metacharacter backslash-w, and the whitespace
class of backslash-s (the ASCII whitespace characters plus the common
Unicode space characters recognised by JavaScript). -/

/-- The JavaScript regex word-character class: letters, digits, underscore. -/
def jsWordChar (c : Char) : Bool :=
  ('a' ≤ c && c ≤ 'z') || ('A' ≤ c && c ≤ 'Z') || ('0' ≤ c && c ≤ '9') || c = '_'

/-- The JavaScript regex whitespace class. -/
def jsWhitespace (c : Char) : Bool :=
  c = ' ' || c = '\t' || c = '\n' || c = '\r' || c = '\x0b' || c = '\x0c' ||
  c = '\u00A0' || c = '\u2028' || c = '\u2029' || c = '\uFEFF'

/-- JavaScript string truthiness: the empty string is falsy. -/
def jsTruthy (s : String) : Bool := s ≠ ""

/-- Truthiness of a possibly-null JavaScript string: null and the empty
string are falsy. -/
def jsTruthyOpt : Option String → Bool
  | none => false
  | some s => jsTruthy s

/-- JavaScript String.prototype.startsWith: the second string's character
sequence is a prefix of the first string's. -/
def jsStartsWith (s pre : String) : Bool := pre.data.isPrefixOf s.data

mutual

/-- Accumulating a token of a JavaScript split on a whitespace regex:
consumes characters into the accumulator until whitespace (or the end)
ends the token. -/
def splitWsTok : List Char → List Char → List (List Char)
  | [], acc => [acc.reverse]
  | c :: cs, acc =>
    if jsWhitespace c then acc.reverse :: splitWsSep cs
    else splitWsTok cs (c :: acc)

/-- Skipping the characters of one maximal whitespace separator run. -/
def splitWsSep : List Char → List (List Char)
  | [] => [[]]
  | c :: cs => if jsWhitespace c then splitWsSep cs else splitWsTok cs [c]

end

/-- JavaScript split on a one-or-more-whitespace regex.  A maximal run of
whitespace separates tokens; a leading or trailing run contributes an
empty token, and the empty string splits to a single empty token (the
regex does not match the empty string, so the result is never empty). -/
def jsSplitWs (cs : List Char) : List (List Char) := splitWsTok cs []

/-- The vowel class of the source's case-insensitive vowel regex. -/
def jsVowel (c : Char) : Bool :=
  c = 'a' || c = 'e' || c = 'i' || c = 'o' || c = 'u' ||
  c = 'A' || c = 'E' || c = 'I' || c = 'O' || c = 'U'

/-! ## Symbol derivation (frontend landing screen)

Embedding of `generateNFTSymbol` from `src/frontend/src/app/page.tsx`
(also duplicated in `src/unnamed/part_001`).  The source strips characters
outside the word/whitespace classes, splits on whitespace, and branches on
the number of words.  In the multiple-word branch the source indexes
`word[0]` and calls `toUpperCase()` on it, which throws a TypeError when a
word is empty (leading/trailing whitespace produces empty words); the
embedding returns `none` for that exceptional path. -/

def generateNFTSymbol (name : String) : Option String :=
  let cleaned := name.data.filter (fun c => jsWordChar c || jsWhitespace c)
  let words := jsSplitWs cleaned
  if words.length = 0 then some "NFT"
  else if words.length = 1 then
    let word := (words.headD []).map Char.toUpper
    if word.length ≤ 4 then some (String.mk word)
    else
      let consonants := word.filter (fun c => !jsVowel c)
      if consonants.length ≥ 3 then some (String.mk (consonants.take 4))
      else some (String.mk (word.take 4))
  else
    (words.mapM (fun w : List Char => w.head?.map Char.toUpper)).map
      (fun initials => String.mk (initials.take 4))

/-! ## Shared configuration constants (`src/unnamed/part_000`) -/

/-- JavaScript number-to-string rendering in a given base, as used by
`toString(16)`: the base-b digits of the number, lowercase. -/
def jsToStringBase (b n : Nat) : String := String.mk (Nat.toDigits b n)

/-- The decimal chain identifier from the shared configuration module. -/
def CHAIN_ID_DECIMAL : Nat := 393

/-- The hexadecimal chain identifier, derived from the decimal constant by
the source's template literal prepending "0x" to its base-16 rendering. -/
def NEXUS_CHAIN_ID_HEX : String := "0x" ++ jsToStringBase 16 CHAIN_ID_DECIMAL

/-- The RPC endpoint URL from the shared configuration module. -/
def NEXUS_RPC_URL : String := "https://rpc.nexus.xyz/http"

/-! ## Metadata documents (`src/frontend/src/app/api/metadata/[tokenId]/route.ts`)

The `NFTMetadata` interface, its validator, the uploaded-image resolver and
the GET handler.  The handler's inputs that come from the machine are
explicit parameters: the two environment variables (null when unset), the
list of filenames present in the uploads directory (empty when the
directory does not exist), and the current time in milliseconds. -/

/-- A JavaScript attribute value that is either a string or a number
(the only two shapes the route ever constructs). -/
inductive AttrValue where
  | str (s : String)
  | num (n : Nat)
deriving DecidableEq

/-- One entry of the metadata attributes array. -/
structure MetaAttr where
  trait_type : String
  value : AttrValue
  display_type : Option String := none
deriving DecidableEq

/-- The OpenSea-compatible metadata document of the route's interface. -/
structure Metadata where
  name : String
  description : String
  image : String
  external_url : String
  attributes : List MetaAttr
deriving DecidableEq

/-- The route's typeof check on an attribute value: string or number. -/
def attrValueWellTyped : AttrValue → Bool
  | .str _ => true
  | .num _ => true

/-- `validateMetadata` from the route: the four string fields are truthy
and every attribute has a truthy trait type and a string-or-number value.
(The attributes field of the embedding is always a list, so the source's
Array.isArray check is always satisfied.) -/
def validateMetadata (m : Metadata) : Bool :=
  jsTruthy m.name && jsTruthy m.description && jsTruthy m.image &&
  jsTruthy m.external_url &&
  m.attributes.all (fun a => jsTruthy a.trait_type && attrValueWellTyped a.value)

/-- `findUploadedImage` from the route: filter the stored filenames to
those starting with "token-" followed by the token ID and a dash, sort,
reverse and take the first (the lexicographically greatest), prefixing it
with "/uploads/"; null when no file matches. -/
def findUploadedImage (uploadFiles : List String) (tokenId : String) : Option String :=
  let tokenFiles := uploadFiles.filter
    (fun f => jsStartsWith f ("token-" ++ tokenId ++ "-"))
  match (tokenFiles.mergeSort (fun a b => decide (a ≤ b))).reverse with
  | [] => none
  | mostRecent :: _ => some ("/uploads/" ++ mostRecent)

/-- JavaScript `a || b` applied to a possibly-undefined string: the
default is used when the value is undefined or empty. -/
def jsOrDefault (v : Option String) (d : String) : String :=
  match v with
  | none => d
  | some s => if s = "" then d else s

/-- The metadata document the GET handler builds for a token ID, given the
resolved API and website URLs, the resolved uploaded-image path (if any)
and the current time in milliseconds. -/
def buildMetadata (tokenId apiUrl websiteUrl : String)
    (uploadedImage : Option String) (nowMs : Nat) : Metadata where
  name := "MyNFT #" ++ tokenId
  description := "NFT #" ++ tokenId ++ " on the Nexus network."
  image :=
    match uploadedImage with
    | some path => apiUrl ++ path
    | none => apiUrl ++ "/api/image/" ++ tokenId
  external_url := websiteUrl ++ "/nft/" ++ tokenId
  attributes :=
    [ { trait_type := "Token ID", value := .str tokenId },
      { trait_type := "Image Type",
        value := .str (match uploadedImage with
          | some _ => "Uploaded"
          | none => "Generated") },
      { trait_type := "Created", value := .num (nowMs / 1000),
        display_type := some "date" } ]

/-- A response of the metadata GET handler: a JSON body with a
Cache-Control header, or an error status with a message body. -/
inductive GetResponse where
  | ok (body : Metadata) (cacheControl : String)
  | err (status : Nat) (message : String)
deriving DecidableEq

/-- The GET handler: resolve the environment URLs with their defaults,
look up the most recent uploaded image, build the document, and serve it
with the immutable cache directive if it validates, else fail with 500. -/
def metadataGET (tokenId : String) (envApiUrl envWebsiteUrl : Option String)
    (uploadFiles : List String) (nowMs : Nat) : GetResponse :=
  let apiUrl := jsOrDefault envApiUrl "http://localhost:3000"
  let websiteUrl := jsOrDefault envWebsiteUrl "http://localhost:3000"
  let uploadedImage := findUploadedImage uploadFiles tokenId
  let metadata := buildMetadata tokenId apiUrl websiteUrl uploadedImage nowMs
  if validateMetadata metadata then
    .ok metadata "public, max-age=31536000, immutable"
  else
    .err 500 "Invalid metadata structure"

/-! ## Image upload endpoint (POST handler in the same route file) -/

/-- The file field of the multipart form: its MIME type and its original
filename. -/
structure UploadedFile where
  type : String
  name : String
deriving DecidableEq

/-- A response of the upload POST handler. -/
inductive PostResponse where
  | badRequest (error : String)
  | serverError (error : String)
  | success (filename : String)
deriving DecidableEq

/-- The stored filename: "token-<tokenId>-<millis>-<originalName>" when the
form carried a truthy token ID, else "<millis>-<originalName>". -/
def uploadFilename (tokenId : Option String) (timestamp : Nat)
    (origName : String) : String :=
  if jsTruthyOpt tokenId then
    "token-" ++ tokenId.getD "" ++ "-" ++ Nat.repr timestamp ++ "-" ++ origName
  else
    Nat.repr timestamp ++ "-" ++ origName

/-- The POST handler: 400 when the form has no file, 400 when the file's
content type does not begin with "image/", otherwise write the file under
the timestamped name (the `writeOk` parameter stands for the file-system
write, whose failure the handler converts to a 500) and answer with the
"/uploads/" path of the stored name. -/
def uploadPOST (file : Option UploadedFile) (tokenId : Option String)
    (timestamp : Nat) (writeOk : Bool) : PostResponse :=
  match file with
  | none => .badRequest "No file uploaded"
  | some f =>
    if !(jsStartsWith f.type "image/") then .badRequest "File must be an image"
    else if writeOk then
      .success ("/uploads/" ++ uploadFilename tokenId timestamp f.name)
    else .serverError "Upload failed"

/-! ## Base metadata URI construction

The landing screen (`src/frontend/src/app/page.tsx`) strips all trailing
slashes from the API URL (regex: one-or-more slashes anchored at the end)
before appending "/api/metadata/"; the deployment script
(`src/contracts/scripts/deploy.ts`) strips at most one trailing slash
(regex: a single slash anchored at the end). -/

/-- JavaScript replace of the all-trailing-slashes regex by the empty
string. -/
def stripTrailingSlashes (s : String) : String :=
  String.mk ((s.data.reverse.dropWhile (fun c => c = '/')).reverse)

/-- JavaScript replace of the single-trailing-slash regex by the empty
string: when the last character is a slash it is removed. -/
def stripOneTrailingSlash (s : String) : String :=
  match s.data.reverse with
  | '/' :: rest => String.mk rest.reverse
  | _ => s

/-- The base URI the landing screen passes to setBaseURI after
deployment. -/
def frontendBaseUri (apiUrl : String) : String :=
  stripTrailingSlashes apiUrl ++ "/api/metadata/"

/-- The base URI the deployment script computes. -/
def scriptBaseUri (apiUrl : String) : String :=
  stripOneTrailingSlash apiUrl ++ "/api/metadata/"

/-! ## Deployment script (`src/contracts/scripts/deploy.ts`) -/

/-- The three constructor arguments the deployment script passes to the
contract factory's deploy call. -/
structure DeployCall where
  arg1 : String
  arg2 : String
  arg3 : String
deriving DecidableEq

/-- The deployment script's pure decision flow: fail fast when the API URL
environment variable is unset or empty, else deploy with the fixed name,
the fixed symbol, and the computed metadata base URI as the three
constructor arguments. -/
def deployScriptMain (envApiUrl : Option String) : Except String DeployCall :=
  match envApiUrl with
  | none => .error "NEXT_PUBLIC_API_URL environment variable is not set"
  | some apiUrl =>
    if apiUrl = "" then
      .error "NEXT_PUBLIC_API_URL environment variable is not set"
    else
      .ok { arg1 := "Nexus NFT Collection", arg2 := "NNFT",
            arg3 := scriptBaseUri apiUrl }

/-- The shape of a 20-byte chain address as a string: "0x" followed by 40
hexadecimal digits. -/
def isHexAddress (s : String) : Bool :=
  match s.data with
  | '0' :: 'x' :: rest =>
    rest.length = 40 &&
    rest.all (fun c =>
      c.isDigit || ('a' ≤ c && c ≤ 'f') || ('A' ≤ c && c ≤ 'F'))
  | _ => false

/-! ## Gallery fetch loop
(`src/frontend/src/app/collection/[address]/page.tsx`)

The per-token work of `fetchCollectionNFTs` is driven by the chain and the
network, modelled as an oracle giving each token ID's outcome.  The loop
body is a try block: an empty token URI pushes a null-metadata entry and
continues; a thrown error at any step is caught and also pushes a
null-metadata entry; success pushes the parsed metadata. -/

/-- The outcome of one token's URI read and metadata fetch. -/
inductive TokenFetchOutcome where
  | uriThrows
  | uriEmpty
  | fetchThrows
  | badStatus (code : Nat)
  | badContentType
  | jsonThrows
  | ok (m : Metadata)

/-- The try block of one gallery loop iteration: the entry it pushes, or
the error it throws (which the surrounding catch converts to a
null-metadata entry). -/
def fetchTokenTry (i : Nat) : TokenFetchOutcome →
    Except String (String × Option Metadata)
  | .uriThrows => .error "tokenURI reverted"
  | .uriEmpty => .ok (Nat.repr i, none)
  | .fetchThrows => .error "fetch failed"
  | .badStatus code => .error ("HTTP error! status: " ++ Nat.repr code)
  | .badContentType => .error "Invalid content type"
  | .jsonThrows => .error "JSON parse error"
  | .ok m => .ok (Nat.repr i, some m)

/-- The gallery fetch: for token IDs 1 up to the total supply, run the
iteration's try block and catch any failure into a null-metadata entry. -/
def fetchCollectionNFTs (env : Nat → TokenFetchOutcome)
    (totalSupply : Nat) : List (String × Option Metadata) :=
  (List.range totalSupply).map (fun k =>
    match fetchTokenTry (k + 1) (env (k + 1)) with
    | .ok entry => entry
    | .error _ => (Nat.repr (k + 1), none))

/-! ## Network switching (`switchNetwork` in the landing screen) -/

/-- The parameter object of a wallet_addEthereumChain request. -/
structure AddChainParams where
  chainId : String
  rpcUrls : List String
  chainName : String
  currencyName : String
  currencySymbol : String
  currencyDecimals : Nat
deriving DecidableEq

/-- A request issued to the browser wallet provider. -/
inductive WalletRequest where
  | switchChain (chainId : String)
  | addChain (p : AddChainParams)
  | getChainId
deriving DecidableEq

/-- The wallet provider's behaviour for one switchNetwork run: the result
of the chain-switch request (an error carries the wallet error code), the
result of a chain-add request, and the chain ID the wallet reports to
eth_chainId afterwards. -/
structure Wallet where
  switchResult : Except Nat Unit
  addResult : Except Unit Unit
  reportedChainId : String

/-- `checkNetwork` from the landing screen: the wallet's reported chain ID
equals the configured hexadecimal chain ID. -/
def checkNetwork (w : Wallet) : Bool :=
  w.reportedChainId == NEXUS_CHAIN_ID_HEX

/-- The add-chain parameters the landing screen supplies. -/
def nexusAddChainParams : AddChainParams where
  chainId := NEXUS_CHAIN_ID_HEX
  rpcUrls := [NEXUS_RPC_URL]
  chainName := "Nexus Testnet"
  currencyName := "NEXUS"
  currencySymbol := "NEXUS"
  currencyDecimals := 18

/-- `switchNetwork` from the landing screen: request a chain switch; on
success re-run checkNetwork.  If the switch fails with wallet error code
4902, request adding the chain and re-run checkNetwork (an add failure
returns false); any other switch error returns false.  The second
component records the requests issued to the wallet, in order. -/
def switchNetwork (w : Wallet) : Bool × List WalletRequest :=
  match w.switchResult with
  | .ok _ => (checkNetwork w, [.switchChain NEXUS_CHAIN_ID_HEX, .getChainId])
  | .error code =>
    if code = 4902 then
      match w.addResult with
      | .ok _ =>
        (checkNetwork w,
          [.switchChain NEXUS_CHAIN_ID_HEX, .addChain nexusAddChainParams,
            .getChainId])
      | .error _ =>
        (false,
          [.switchChain NEXUS_CHAIN_ID_HEX, .addChain nexusAddChainParams])
    else (false, [.switchChain NEXUS_CHAIN_ID_HEX])

/-! ## Concrete test data -/

/-- A wallet whose switch request fails with code 4902, whose add request
succeeds, and which then reports the target chain. -/
def fallbackWallet : Wallet where
  switchResult := .error 4902
  addResult := .ok ()
  reportedChainId := "0x189"

/-- A gallery environment with total supply 3 where token 2's metadata
fetch fails with a non-200 status and the other tokens succeed. -/
def galleryEnvExample : Nat → TokenFetchOutcome := fun i =>
  if i = 2 then .badStatus 500
  else .ok (buildMetadata (Nat.repr i) "http://localhost:3000"
    "http://localhost:3000" none 0)

/-- The value of the base-10 digit string rendered by the number-to-string
conversion, used to reason about timestamp-embedding filenames. -/
def decodeDigits (l : List Char) : Nat :=
  l.foldl (fun acc c => acc * 10 + (c.toNat - '0'.toNat)) 0

end NFTNexus

namespace NFTNexus

/-! ## Theorems for claims C1 and C9 -/

/-- C1: the claim asserts generateNFTSymbol("!!!") = "NFT"; on the code the
zero-words branch is unreachable (a JavaScript split on a whitespace regex
never returns an empty array: splitting the fully-stripped empty string
yields a one-element array holding the empty string), so the single-word
branch returns the empty string instead.  The other stated values hold:
"Cat" gives "CAT", "Dragons" gives "DRGN", "My Cool Collection" gives
"MCC".  This theorem evaluates the embedded code at the failing input. -/
theorem generateNFTSymbol_examples :
    generateNFTSymbol "Cat" = some "CAT" ∧
    generateNFTSymbol "Dragons" = some "DRGN" ∧
    generateNFTSymbol "My Cool Collection" = some "MCC" ∧
    generateNFTSymbol "!!!" = some "" ∧
    generateNFTSymbol "!!!" ≠ some "NFT" := by
  refine ⟨by decide, by decide, by decide, by decide, by decide⟩

/-- C9: the shared configuration module's hexadecimal chain ID is defined
by deriving it from the decimal constant 393 ("0x" prepended to the
base-16 rendering), and the derived value is the string "0x189". -/
theorem chainIdHex_derived :
    CHAIN_ID_DECIMAL = 393 ∧
    NEXUS_CHAIN_ID_HEX = "0x" ++ jsToStringBase 16 CHAIN_ID_DECIMAL ∧
    NEXUS_CHAIN_ID_HEX = "0x189" := by
  refine ⟨rfl, rfl, by decide⟩

/-! ## String helper lemmas -/

theorem string_eq_empty_iff (s : String) : s = "" ↔ s.data = [] := by
  cases s with
  | mk d => exact ⟨fun h => congrArg String.data h, fun h => congrArg String.mk h⟩

theorem append_ne_empty_left (a b : String) (ha : a ≠ "") : a ++ b ≠ "" := by
  intro h
  apply ha
  rw [string_eq_empty_iff] at h ⊢
  rw [String.data_append] at h
  exact (List.append_eq_nil.mp h).1

theorem append_ne_empty_right (a b : String) (hb : b ≠ "") : a ++ b ≠ "" := by
  intro h
  apply hb
  rw [string_eq_empty_iff] at h ⊢
  rw [String.data_append] at h
  exact (List.append_eq_nil.mp h).2

theorem jsOrDefault_ne_empty (v : Option String) (d : String) (hd : d ≠ "") :
    jsOrDefault v d ≠ "" := by
  cases v with
  | none => exact hd
  | some s =>
    by_cases hs : s = ""
    · simp only [jsOrDefault, hs, if_pos]
      exact hd
    · simp only [jsOrDefault, hs, if_neg, ite_false]
      exact hs

theorem append_metadata_path_getLast (s : String) :
    (s ++ "/api/metadata/").data.getLast? = some '/' := by
  rw [String.data_append, List.getLast?_append]
  rfl

/-! ## Theorems for claims C7 and C3 -/

/-- C7 counterexample: the claim states that both deploy flows install the
API URL with all trailing slashes removed plus "/api/metadata/"; the
deployment script only strips a single trailing slash, so for an API URL
ending in two slashes its base URI differs from the claimed value. -/
theorem scriptBaseUri_cx :
    scriptBaseUri "http://localhost:3000//" =
      "http://localhost:3000//api/metadata/" ∧
    stripTrailingSlashes "http://localhost:3000//" ++ "/api/metadata/" =
      "http://localhost:3000/api/metadata/" ∧
    scriptBaseUri "http://localhost:3000//" ≠
      stripTrailingSlashes "http://localhost:3000//" ++ "/api/metadata/" := by
  refine ⟨by decide, by decide, by decide⟩

/-- C7 amended: the landing screen's installed base URI is the API URL
with all trailing slashes removed plus "/api/metadata/", while the
deployment script's is the API URL with at most one trailing slash removed
plus "/api/metadata/"; both always end with a trailing slash. -/
theorem baseUri_construction (apiUrl : String) :
    frontendBaseUri apiUrl = stripTrailingSlashes apiUrl ++ "/api/metadata/" ∧
    scriptBaseUri apiUrl = stripOneTrailingSlash apiUrl ++ "/api/metadata/" ∧
    (frontendBaseUri apiUrl).data.getLast? = some '/' ∧
    (scriptBaseUri apiUrl).data.getLast? = some '/' := by
  refine ⟨rfl, rfl, append_metadata_path_getLast _, append_metadata_path_getLast _⟩

/-- C3 counterexample: the claim states the deployment script passes an
initial owner address as the third constructor argument; at a concrete API
URL the script's third argument is the computed metadata base URI, which
is not a 20-byte hexadecimal address. -/
theorem deployScript_args_cx :
    deployScriptMain (some "http://localhost:3000") =
      .ok ⟨"Nexus NFT Collection", "NNFT",
        "http://localhost:3000/api/metadata/"⟩ ∧
    isHexAddress "http://localhost:3000/api/metadata/" = false := by
  refine ⟨by rfl, by decide⟩

/-- C3 amended: for any non-empty API URL environment value, the
deployment script deploys the contract passing the fixed collection name
"Nexus NFT Collection", the fixed symbol "NNFT", and the computed metadata
base URI as the three constructor arguments (the base URI is supplied at
construction rather than set by a later call). -/
theorem deployScript_args (apiUrl : String) (h : apiUrl ≠ "") :
    deployScriptMain (some apiUrl) =
      .ok ⟨"Nexus NFT Collection", "NNFT", scriptBaseUri apiUrl⟩ ∧
    (scriptBaseUri apiUrl).data.getLast? = some '/' := by
  refine ⟨?_, append_metadata_path_getLast _⟩
  simp [deployScriptMain, h]

/-- Witness for the amended C3 theorem at a concrete API URL. -/
theorem deployScript_args_witness :
    deployScriptMain (some "http://example.org") =
      .ok ⟨"Nexus NFT Collection", "NNFT", scriptBaseUri "http://example.org"⟩ ∧
    (scriptBaseUri "http://example.org").data.getLast? = some '/' :=
  deployScript_args "http://example.org" (by decide)

/-! ## Theorems for claims C8 and C4 -/

/-- C8: when the chain-switch request fails with wallet error code 4902,
switchNetwork issues an add-chain request carrying the target hexadecimal
chain ID, the configured RPC URL, the chain name "Nexus Testnet" and the
native currency (name "NEXUS", symbol "NEXUS", 18 decimals), and (once the
add request goes through) returns whether the wallet's reported chain ID
equals "0x189"; for any other switch error code no add-chain request is
issued and switchNetwork returns false. -/
theorem switchNetwork_fallback (w : Wallet) :
    (∀ code, w.switchResult = .error code → code = 4902 →
      WalletRequest.addChain nexusAddChainParams ∈ (switchNetwork w).2 ∧
      nexusAddChainParams =
        ⟨"0x189", [NEXUS_RPC_URL], "Nexus Testnet", "NEXUS", "NEXUS", 18⟩ ∧
      (w.addResult = .ok () → (switchNetwork w).1 =
        (w.reportedChainId == "0x189"))) ∧
    (∀ code, w.switchResult = .error code → code ≠ 4902 →
      (switchNetwork w).1 = false ∧
      ∀ p, WalletRequest.addChain p ∉ (switchNetwork w).2) := by
  have hhex : NEXUS_CHAIN_ID_HEX = "0x189" := by decide
  constructor
  · intro code hcode h4902
    subst h4902
    rw [switchNetwork, hcode]
    simp only [if_pos rfl]
    refine ⟨?_, ?_, ?_⟩
    · cases hadd : w.addResult <;> simp [hadd]
    · simp [nexusAddChainParams, hhex]
    · intro haddOk
      rw [haddOk]
      simp [checkNetwork, hhex]
  · intro code hcode hne
    rw [switchNetwork, hcode]
    simp only [if_neg hne]
    exact ⟨trivial, by intro p hp; simp at hp⟩

/-- Witness for C8 at a concrete wallet: the switch fails with 4902, the
add-chain request is issued with the configured parameters, and the
re-check succeeds because the wallet then reports "0x189". -/
theorem switchNetwork_fallback_witness :
    WalletRequest.addChain nexusAddChainParams ∈ (switchNetwork fallbackWallet).2 ∧
    (switchNetwork fallbackWallet).1 = ("0x189" == "0x189") := by
  have h := (switchNetwork_fallback fallbackWallet).1 4902 rfl rfl
  exact ⟨h.1, h.2.2 rfl⟩

/-- C4: the gallery fetch returns exactly one entry per token ID 1 up to
the total supply, in order; an entry carries the fetched metadata when the
token's URI read and metadata fetch succeed, and a null metadata value
when any step fails, without aborting the loop or dropping other
entries. -/
theorem fetchCollectionNFTs_tolerant (env : Nat → TokenFetchOutcome) (n : Nat) :
    (fetchCollectionNFTs env n).length = n ∧
    ∀ k, k < n →
      (fetchCollectionNFTs env n)[k]? =
        some (Nat.repr (k + 1),
          match env (k + 1) with
          | .ok m => some m
          | _ => none) := by
  constructor
  · simp [fetchCollectionNFTs]
  · intro k hk
    rw [fetchCollectionNFTs, List.getElem?_map, List.getElem?_range hk]
    cases h : env (k + 1) <;> simp [fetchTokenTry, h]

/-- Witness for C4: with total supply 3 and token 2's fetch failing with a
non-200 status, the result has exactly 3 entries and entry 2 carries a
null metadata value. -/
theorem fetchCollectionNFTs_tolerant_witness :
    (fetchCollectionNFTs galleryEnvExample 3).length = 3 ∧
    (fetchCollectionNFTs galleryEnvExample 3)[1]? = some ("2", none) := by
  have h := fetchCollectionNFTs_tolerant galleryEnvExample 3
  refine ⟨h.1, ?_⟩
  have h2 := h.2 1 (by norm_num)
  rw [show galleryEnvExample 2 = TokenFetchOutcome.badStatus 500 from rfl] at h2
  exact h2

/-! ## Theorems for claim C5 -/

/-- C5: the upload endpoint answers 400 exactly when the form has no file
field or the file's content type does not begin with "image/"; otherwise
(when the file-system write goes through) it stores the file under the
timestamped name — "token-<id>-<millis>-<original>" when a token ID was
supplied, "<millis>-<original>" when not — and answers success with the
stored name under "/uploads/". -/
theorem uploadPOST_validation (file : Option UploadedFile)
    (tokenId : Option String) (ts : Nat) (writeOk : Bool) :
    ((∃ e, uploadPOST file tokenId ts writeOk = .badRequest e) ↔
      (file = none ∨
        ∃ f, file = some f ∧ jsStartsWith f.type "image/" = false)) ∧
    (∀ f, file = some f → jsStartsWith f.type "image/" = true →
      writeOk = true →
      uploadPOST file tokenId ts writeOk =
        .success ("/uploads/" ++ uploadFilename tokenId ts f.name)) ∧
    (∀ t name, t ≠ "" →
      uploadFilename (some t) ts name =
        "token-" ++ t ++ "-" ++ Nat.repr ts ++ "-" ++ name) ∧
    (∀ name, uploadFilename none ts name = Nat.repr ts ++ "-" ++ name) := by
  refine ⟨?_, ?_, ?_, ?_⟩
  · constructor
    · intro ⟨e, he⟩
      cases file with
      | none => exact Or.inl rfl
      | some f =>
        refine Or.inr ⟨f, rfl, ?_⟩
        by_cases hty : jsStartsWith f.type "image/" = true
        · exfalso
          rw [uploadPOST] at he
          simp only [hty, Bool.not_true, Bool.false_eq_true, if_neg] at he
          cases writeOk <;> simp_all
        · simpa using hty
    · intro h
      rcases h with h | ⟨f, hf, hty⟩
      · subst h
        exact ⟨"No file uploaded", rfl⟩
      · subst hf
        refine ⟨"File must be an image", ?_⟩
        rw [uploadPOST]
        simp [hty]
  · intro f hf hty hw
    subst hf hw
    rw [uploadPOST]
    simp [hty]
  · intro t name ht
    rw [uploadFilename]
    simp [jsTruthyOpt, jsTruthy, ht]
  · intro name
    rw [uploadFilename]
    simp [jsTruthyOpt]

/-- Witness for C5: a concrete image upload with token ID "7" at a
concrete millisecond timestamp succeeds and stores the file under the
claimed name pattern. -/
theorem uploadPOST_validation_witness :
    uploadPOST (some ⟨"image/png", "cat.png"⟩) (some "7") 1730000000000 true =
      .success ("/uploads/" ++ uploadFilename (some "7") 1730000000000 "cat.png") ∧
    uploadFilename (some "7") 1730000000000 "cat.png" =
      "token-7-1730000000000-cat.png" := by
  have h := uploadPOST_validation (some ⟨"image/png", "cat.png"⟩)
    (some "7") 1730000000000 true
  refine ⟨h.2.1 _ rfl (by decide) rfl, ?_⟩
  rw [h.2.2.1 "7" "cat.png" (by decide)]
  decide

/-! ## Theorems for claims C2 and C10 -/

theorem jsTruthy_eq_true {s : String} : jsTruthy s = true ↔ s ≠ "" := by
  simp [jsTruthy]

theorem validate_buildMetadata (tokenId apiUrl websiteUrl : String)
    (uploadedImage : Option String) (nowMs : Nat) (hapi : apiUrl ≠ "") :
    validateMetadata
      (buildMetadata tokenId apiUrl websiteUrl uploadedImage nowMs) = true := by
  have himg :
      (buildMetadata tokenId apiUrl websiteUrl uploadedImage nowMs).image ≠ "" := by
    cases uploadedImage with
    | none => exact append_ne_empty_left _ _ (append_ne_empty_left _ _ hapi)
    | some path => exact append_ne_empty_left _ _ hapi
  rw [validateMetadata]
  simp only [Bool.and_eq_true, List.all_eq_true]
  refine ⟨⟨⟨⟨?_, ?_⟩, ?_⟩, ?_⟩, ?_⟩
  · exact jsTruthy_eq_true.mpr (append_ne_empty_left _ _ (by decide))
  · exact jsTruthy_eq_true.mpr (append_ne_empty_left _ _
      (append_ne_empty_left _ _ (by decide)))
  · exact jsTruthy_eq_true.mpr himg
  · exact jsTruthy_eq_true.mpr (append_ne_empty_left _ _
      (append_ne_empty_right _ _ (by decide)))
  · intro a ha
    simp only [buildMetadata, List.mem_cons, List.not_mem_nil, or_false] at ha
    rcases ha with rfl | rfl | rfl
    · exact ⟨rfl, rfl⟩
    · exact ⟨rfl, by cases uploadedImage <;> rfl⟩
    · exact ⟨rfl, rfl⟩

/-- C2: a successful GET of the metadata endpoint returns the document
with name "MyNFT #<id>", description "NFT #<id> on the Nexus network.",
image pointing at the uploaded file when one exists for the token and at
the image-generation endpoint otherwise, external URL "<website>/nft/<id>",
and exactly three attributes: Token ID (the ID as a string), Image Type
("Uploaded" or "Generated"), and Created, a date-typed attribute holding
the request-time Unix timestamp in seconds. -/
theorem metadataGET_document (tokenId : String) (envApi envWeb : Option String)
    (files : List String) (nowMs : Nat) :
    ∃ m, metadataGET tokenId envApi envWeb files nowMs =
        .ok m "public, max-age=31536000, immutable" ∧
      m.name = "MyNFT #" ++ tokenId ∧
      m.description = "NFT #" ++ tokenId ++ " on the Nexus network." ∧
      m.image = (match findUploadedImage files tokenId with
        | some path => jsOrDefault envApi "http://localhost:3000" ++ path
        | none =>
          jsOrDefault envApi "http://localhost:3000" ++ "/api/image/" ++ tokenId) ∧
      m.external_url =
        jsOrDefault envWeb "http://localhost:3000" ++ "/nft/" ++ tokenId ∧
      m.attributes =
        [ ⟨"Token ID", .str tokenId, none⟩,
          ⟨"Image Type",
            .str (match findUploadedImage files tokenId with
              | some _ => "Uploaded"
              | none => "Generated"), none⟩,
          ⟨"Created", .num (nowMs / 1000), some "date"⟩ ] := by
  have hv := validate_buildMetadata tokenId
    (jsOrDefault envApi "http://localhost:3000")
    (jsOrDefault envWeb "http://localhost:3000")
    (findUploadedImage files tokenId) nowMs
    (jsOrDefault_ne_empty _ _ (by decide))
  have hm : metadataGET tokenId envApi envWeb files nowMs =
      .ok (buildMetadata tokenId (jsOrDefault envApi "http://localhost:3000")
        (jsOrDefault envWeb "http://localhost:3000")
        (findUploadedImage files tokenId) nowMs)
        "public, max-age=31536000, immutable" := by
    simp [metadataGET, hv]
  exact ⟨_, hm, rfl, rfl, by cases findUploadedImage files tokenId <;> rfl,
    rfl, by cases findUploadedImage files tokenId <;> rfl⟩

/-- C10: the document the GET handler builds always passes
validateMetadata, so the handler's invalid-structure error path is
unreachable and the handler answers 200 with the immutable cache directive
for every token ID, environment and uploads state. -/
theorem metadataGET_always_valid (tokenId : String) (envApi envWeb : Option String)
    (files : List String) (nowMs : Nat) :
    validateMetadata (buildMetadata tokenId
      (jsOrDefault envApi "http://localhost:3000")
      (jsOrDefault envWeb "http://localhost:3000")
      (findUploadedImage files tokenId) nowMs) = true ∧
    ∃ m, metadataGET tokenId envApi envWeb files nowMs =
      .ok m "public, max-age=31536000, immutable" := by
  have hv := validate_buildMetadata tokenId
    (jsOrDefault envApi "http://localhost:3000")
    (jsOrDefault envWeb "http://localhost:3000")
    (findUploadedImage files tokenId) nowMs
    (jsOrDefault_ne_empty _ _ (by decide))
  have hm : metadataGET tokenId envApi envWeb files nowMs =
      .ok (buildMetadata tokenId (jsOrDefault envApi "http://localhost:3000")
        (jsOrDefault envWeb "http://localhost:3000")
        (findUploadedImage files tokenId) nowMs)
        "public, max-age=31536000, immutable" := by
    simp [metadataGET, hv]
  exact ⟨hv, _, hm⟩

/-! ## Digit-string lemmas for timestamped filenames

The stored filename embeds the millisecond timestamp as a base-10 digit
string between dashes.  These lemmas recover the timestamp from the
filename: the rendering consists of digits only, the first dash after it
therefore delimits it, and the rendering is injective. -/

theorem digitChar_isDigit : ∀ m : Nat, m < 10 → (Nat.digitChar m).isDigit = true := by
  decide

theorem digitChar_val : ∀ m : Nat, m < 10 → (Nat.digitChar m).toNat - '0'.toNat = m := by
  decide

theorem decodeDigits_append_singleton (xs : List Char) (c : Char) :
    decodeDigits (xs ++ [c]) = decodeDigits xs * 10 + (c.toNat - '0'.toNat) := by
  simp [decodeDigits, List.foldl_append]

theorem toDigitsCore_succ (b f n : Nat) (l : List Char) :
    Nat.toDigitsCore b (f + 1) n l =
      if n / b = 0 then Nat.digitChar (n % b) :: l
      else Nat.toDigitsCore b f (n / b) (Nat.digitChar (n % b) :: l) := rfl

theorem toDigitsCore_acc (b f : Nat) : ∀ (n : Nat) (l : List Char),
    Nat.toDigitsCore b f n l = Nat.toDigitsCore b f n [] ++ l := by
  induction f with
  | zero => intro n l; simp [Nat.toDigitsCore]
  | succ f ih =>
    intro n l
    simp only [Nat.toDigitsCore]
    by_cases h : n / b = 0
    · simp [h]
    · simp only [if_neg h]
      rw [ih (n / b) (Nat.digitChar (n % b) :: l), ih (n / b) [Nat.digitChar (n % b)]]
      simp

theorem toDigitsCore_spec (f : Nat) : ∀ n : Nat, n < 10 ^ (f + 1) →
    decodeDigits (Nat.toDigitsCore 10 (f + 1) n []) = n ∧
    ∀ c ∈ Nat.toDigitsCore 10 (f + 1) n [], c.isDigit = true := by
  induction f with
  | zero =>
    intro n hn
    have hlt : n < 10 := by simpa using hn
    have h0 : n / 10 = 0 := Nat.div_eq_of_lt hlt
    rw [toDigitsCore_succ, if_pos h0]
    constructor
    · have hone : decodeDigits [Nat.digitChar (n % 10)] =
          (Nat.digitChar (n % 10)).toNat - '0'.toNat := by
        simp [decodeDigits]
      rw [hone, digitChar_val _ (Nat.mod_lt _ (by norm_num))]
      exact Nat.mod_eq_of_lt hlt
    · intro c hc
      simp only [List.mem_singleton] at hc
      subst hc
      exact digitChar_isDigit _ (Nat.mod_lt _ (by norm_num))
  | succ f ih =>
    intro n hn
    by_cases h0 : n / 10 = 0
    · have hlt : n < 10 := by
        by_contra hge
        push_neg at hge
        have h1 : 1 ≤ n / 10 := (Nat.one_le_div_iff (by norm_num)).mpr hge
        omega
      rw [toDigitsCore_succ, if_pos h0]
      constructor
      · have hone : decodeDigits [Nat.digitChar (n % 10)] =
            (Nat.digitChar (n % 10)).toNat - '0'.toNat := by
          simp [decodeDigits]
        rw [hone, digitChar_val _ (Nat.mod_lt _ (by norm_num))]
        exact Nat.mod_eq_of_lt hlt
      · intro c hc
        simp only [List.mem_singleton] at hc
        subst hc
        exact digitChar_isDigit _ (Nat.mod_lt _ (by norm_num))
    · rw [toDigitsCore_succ, if_neg h0, toDigitsCore_acc]
      have hdiv : n / 10 < 10 ^ (f + 1) := by
        rw [pow_succ, Nat.mul_comm] at hn
        exact Nat.div_lt_of_lt_mul hn
      obtain ⟨hdec, hdig⟩ := ih (n / 10) hdiv
      constructor
      · rw [decodeDigits_append_singleton, hdec,
          digitChar_val _ (Nat.mod_lt _ (by norm_num))]
        omega
      · intro c hc
        rcases List.mem_append.mp hc with h | h
        · exact hdig c h
        · simp only [List.mem_singleton] at h
          subst h
          exact digitChar_isDigit _ (Nat.mod_lt _ (by norm_num))

theorem repr_bound (n : Nat) : n < 10 ^ (n + 1) :=
  lt_of_lt_of_le (Nat.lt_pow_self (by norm_num) n)
    (Nat.pow_le_pow_right (by norm_num) (Nat.le_succ n))

theorem repr_data_digits (n : Nat) : ∀ c ∈ (Nat.repr n).data, c.isDigit = true :=
  (toDigitsCore_spec n n (repr_bound n)).2

theorem repr_decode (n : Nat) : decodeDigits (Nat.repr n).data = n :=
  (toDigitsCore_spec n n (repr_bound n)).1

theorem repr_inj {m n : Nat} (h : Nat.repr m = Nat.repr n) : m = n := by
  have hd : (Nat.repr m).data = (Nat.repr n).data := congrArg String.data h
  have hm := repr_decode m
  rw [hd, repr_decode n] at hm
  exact hm.symm

theorem string_data_ext {a b : String} (h : a.data = b.data) : a = b := by
  cases a
  cases b
  exact congrArg String.mk h

theorem digit_dash_split : ∀ (a₁ : List Char), ∀ (b₁ : List Char),
    ∀ (a₂ b₂ : List Char),
    (∀ c ∈ a₁, c.isDigit = true) → (∀ c ∈ a₂, c.isDigit = true) →
    a₁ ++ '-' :: b₁ = a₂ ++ '-' :: b₂ → a₁ = a₂ ∧ b₁ = b₂ := by
  intro a₁
  induction a₁ with
  | nil =>
    intro b₁ a₂ b₂ _ h₂ heq
    cases a₂ with
    | nil => simpa using heq
    | cons c t =>
      simp only [List.nil_append, List.cons_append, List.cons.injEq] at heq
      have hc : c.isDigit = true := h₂ c (List.mem_cons_self c t)
      rw [← heq.1] at hc
      exact absurd hc (by decide)
  | cons c t ih =>
    intro b₁ a₂ b₂ h₁ h₂ heq
    cases a₂ with
    | nil =>
      simp only [List.nil_append, List.cons_append, List.cons.injEq] at heq
      have hc : c.isDigit = true := h₁ c (List.mem_cons_self c t)
      rw [heq.1] at hc
      exact absurd hc (by decide)
    | cons c₂ t₂ =>
      simp only [List.cons_append, List.cons.injEq] at heq
      obtain ⟨hc, ht⟩ := heq
      obtain ⟨ht', hb⟩ := ih b₁ t₂ b₂
        (fun x hx => h₁ x (List.mem_cons_of_mem _ hx))
        (fun x hx => h₂ x (List.mem_cons_of_mem _ hx)) ht
      exact ⟨by rw [hc, ht'], hb⟩

theorem digits_dash_inj (t₁ t₂ : Nat) (n₁ n₂ : List Char)
    (h : (Nat.repr t₁).data ++ '-' :: n₁ = (Nat.repr t₂).data ++ '-' :: n₂) :
    t₁ = t₂ := by
  have hsplit := (digit_dash_split _ _ _ _
    (repr_data_digits t₁) (repr_data_digits t₂) h).1
  exact repr_inj (string_data_ext hsplit)

theorem uploadFilename_ts_inj (tid : Option String) (t₁ t₂ : Nat)
    (nm₁ nm₂ : String)
    (h : uploadFilename tid t₁ nm₁ = uploadFilename tid t₂ nm₂) : t₁ = t₂ := by
  rw [uploadFilename, uploadFilename] at h
  by_cases htid : jsTruthyOpt tid = true
  · rw [if_pos htid, if_pos htid] at h
    have hd := congrArg String.data h
    simp only [String.data_append, List.append_assoc] at hd
    have hd₂ := List.append_cancel_left hd
    have hd₃ := List.append_cancel_left hd₂
    have hd₄ := List.append_cancel_left hd₃
    exact digits_dash_inj t₁ t₂ nm₁.data nm₂.data hd₄
  · rw [if_neg htid, if_neg htid] at h
    have hd := congrArg String.data h
    simp only [String.data_append, List.append_assoc] at hd
    exact digits_dash_inj t₁ t₂ nm₁.data nm₂.data hd

/-! ## Theorem for claim C6 -/

/-- C6: when at least one stored filename carries the token's
"token-<id>-" prefix, the metadata endpoint resolves the token's image to
the lexicographically greatest such filename, and two uploads for the same
token ID at distinct millisecond timestamps always produce distinct stored
filenames. -/
theorem findUploadedImage_most_recent (files : List String) (tokenId : String)
    (f : String) (hmem : f ∈ files)
    (hpre : jsStartsWith f ("token-" ++ tokenId ++ "-") = true) :
    (∃ m, findUploadedImage files tokenId = some ("/uploads/" ++ m) ∧
      m ∈ files ∧ jsStartsWith m ("token-" ++ tokenId ++ "-") = true ∧
      ∀ g ∈ files, jsStartsWith g ("token-" ++ tokenId ++ "-") = true → g ≤ m) ∧
    (∀ tid t₁ t₂ nm₁ nm₂, t₁ ≠ t₂ →
      uploadFilename (some tid) t₁ nm₁ ≠ uploadFilename (some tid) t₂ nm₂) := by
  constructor
  · have hftf : f ∈ files.filter
        (fun g => jsStartsWith g ("token-" ++ tokenId ++ "-")) :=
      List.mem_filter.mpr ⟨hmem, hpre⟩
    have hfs : f ∈ (files.filter
        (fun g => jsStartsWith g ("token-" ++ tokenId ++ "-"))).mergeSort
        (fun a b => decide (a ≤ b)) := List.mem_mergeSort.mpr hftf
    have hpw : List.Pairwise (fun a b : String => decide (a ≤ b) = true)
        ((files.filter
          (fun g => jsStartsWith g ("token-" ++ tokenId ++ "-"))).mergeSort
          (fun a b => decide (a ≤ b))) :=
      List.sorted_mergeSort
        (fun a b c hab hbc => by
          simp only [decide_eq_true_eq] at hab hbc ⊢
          exact le_trans hab hbc)
        (fun a b => by rcases le_total a b with h | h <;> simp [h]) _
    obtain ⟨m, rest, hrev⟩ : ∃ m rest,
        ((files.filter
          (fun g => jsStartsWith g ("token-" ++ tokenId ++ "-"))).mergeSort
          (fun a b => decide (a ≤ b))).reverse = m :: rest := by
      cases hr : ((files.filter
          (fun g => jsStartsWith g ("token-" ++ tokenId ++ "-"))).mergeSort
          (fun a b => decide (a ≤ b))).reverse with
      | nil =>
        exfalso
        have hnil : (files.filter
            (fun g => jsStartsWith g ("token-" ++ tokenId ++ "-"))).mergeSort
            (fun a b => decide (a ≤ b)) = [] := by
          simpa using congrArg List.reverse hr
        rw [hnil] at hfs
        simp at hfs
      | cons m rest => exact ⟨m, rest, rfl⟩
    have hpwrev : List.Pairwise (fun a b : String => decide (b ≤ a) = true)
        (m :: rest) := by
      rw [← hrev]
      exact (@List.pairwise_reverse String
        (fun a b : String => decide (b ≤ a) = true) _).mpr hpw
    have hmax : ∀ g, g ∈ m :: rest → g ≤ m := by
      intro g hg
      rcases List.mem_cons.mp hg with rfl | hg
      · exact le_refl g
      · have := (List.pairwise_cons.mp hpwrev).1 g hg
        simpa using this
    have hmtf : m ∈ files.filter
        (fun g => jsStartsWith g ("token-" ++ tokenId ++ "-")) := by
      have : m ∈ ((files.filter
          (fun g => jsStartsWith g ("token-" ++ tokenId ++ "-"))).mergeSort
          (fun a b => decide (a ≤ b))).reverse := by
        rw [hrev]; exact List.mem_cons_self m rest
      exact List.mem_mergeSort.mp (List.mem_reverse.mp this)
    refine ⟨m, ?_, (List.mem_filter.mp hmtf).1, ?_, ?_⟩
    · simp only [findUploadedImage]
      rw [hrev]
    · have := (List.mem_filter.mp hmtf).2
      simpa using this
    · intro g hgfiles hgpre
      have hgtf : g ∈ files.filter
          (fun x => jsStartsWith x ("token-" ++ tokenId ++ "-")) :=
        List.mem_filter.mpr ⟨hgfiles, hgpre⟩
      have hgrev : g ∈ ((files.filter
          (fun x => jsStartsWith x ("token-" ++ tokenId ++ "-"))).mergeSort
          (fun a b => decide (a ≤ b))).reverse :=
        List.mem_reverse.mpr (List.mem_mergeSort.mpr hgtf)
      rw [hrev] at hgrev
      exact hmax g hgrev
  · intro tid t₁ t₂ nm₁ nm₂ hne heq
    exact hne (uploadFilename_ts_inj (some tid) t₁ t₂ nm₁ nm₂ heq)

/-- Witness for C6: with two stored uploads for token 7 at distinct
timestamps, the endpoint resolves to the lexicographically greater
filename, and the two stored filenames are distinct. -/
theorem findUploadedImage_most_recent_witness :
    (∃ m, findUploadedImage
        ["token-7-1730000000000-cat.png", "token-7-1730000000001-cat.png"]
        "7" = some ("/uploads/" ++ m) ∧
      m ∈ ["token-7-1730000000000-cat.png", "token-7-1730000000001-cat.png"] ∧
      jsStartsWith m ("token-" ++ "7" ++ "-") = true ∧
      ∀ g ∈ ["token-7-1730000000000-cat.png", "token-7-1730000000001-cat.png"],
        jsStartsWith g ("token-" ++ "7" ++ "-") = true → g ≤ m) ∧
    uploadFilename (some "7") 1730000000000 "cat.png" ≠
      uploadFilename (some "7") 1730000000001 "cat.png" := by
  have h := findUploadedImage_most_recent
    ["token-7-1730000000000-cat.png", "token-7-1730000000001-cat.png"] "7"
    "token-7-1730000000000-cat.png" (by decide) (by decide)
  exact ⟨h.1, h.2 "7" 1730000000000 1730000000001 "cat.png" "cat.png"
    (by norm_num)⟩

end NFTNexus
